/-
Verification of the soniakeys/astro repository (Go source) against its
natural-language specification.

Shallow embedding conventions:
* Go `float64` values are modelled as real numbers (ℝ); `math.Sin`,
  `math.Cos`, `math.Sqrt`, `math.Atan`, `math.Atan2`, `math.Hypot` become
  the corresponding real functions.
* Go strings are modelled as `List Char` (the data files are ASCII, so a
  byte corresponds to a character); `strings.Split`, `strings.TrimSpace`,
  `strconv.Atoi` are modelled directly.  `strconv.ParseFloat` is an
  external library routine whose internals no claim depends on; it is a
  parameter `pf : String → Except String ℝ` of the loader.
* Fallible Go code returns a result inductive; a Go runtime panic (index
  or slice out of range) is the explicit `panic` constructor; the loader
  loop, which Go runs unboundedly, takes a fuel argument and returns
  `diverge` when the fuel runs out (so non-termination of the Go loop is
  `∀ fuel, result = diverge`).
-/
import Mathlib

namespace AstroSpec

/-! ## Constants from astro.go -/

/-- Gaussian gravitational constant, `K` in astro.go. -/
noncomputable def K : ℝ := 0.01720209895

/-- Sine of the obliquity at J2000, `SOblJ2000` in astro.go. -/
noncomputable def SOblJ2000 : ℝ := 0.397777156

/-- Cosine of the obliquity at J2000, `COblJ2000` in astro.go. -/
noncomputable def COblJ2000 : ℝ := 0.917482062

/-- `J2000Century` from astro.go: Julian centuries since J2000. -/
noncomputable def J2000Century (jde : ℝ) : ℝ := (jde - 2451545.0) / 36525

/-! ## math.Mod and PMod

Go's `math.Mod(x, y)` returns `x - y * trunc(x / y)`: the remainder has
the sign of `x` and magnitude less than `|y|`.  `PMod` (astro.go) then
adds `y` when the remainder is negative. -/

/-- Truncation toward zero, the rounding used by Go's `math.Mod`. -/
noncomputable def realTrunc (z : ℝ) : ℤ := if 0 ≤ z then ⌊z⌋ else ⌈z⌉

/-- Model of Go `math.Mod`. -/
noncomputable def goMod (x y : ℝ) : ℝ := x - y * realTrunc (x / y)

/-- `PMod` from astro.go: positive floating-point `x mod y`. -/
noncomputable def PMod (x y : ℝ) : ℝ :=
  let r := goMod x y
  if r < 0 then r + y else r

/-! ## Horner (astro.go)

The Go loop starts `y` at the highest coefficient `c[len(c)-1]` and
multiplies down: with an empty list the initial index is `-1` and the
access panics (modelled as `none`). -/

/-- The descending loop of `Horner` for a nonempty coefficient list. -/
noncomputable def hornerFrom (x : ℝ) : List ℝ → ℝ
  | [] => 0
  | [a] => a
  | a :: b :: t => hornerFrom x (b :: t) * x + a

/-- `Horner` from astro.go.  `none` models the Go panic on an empty
coefficient list (`c[len(c)-1]` with `len(c) = 0`). -/
noncomputable def Horner (x : ℝ) (c : List ℝ) : Option ℝ :=
  match c with
  | [] => none
  | _ => some (hornerFrom x c)

/-! ## Kepler equation solver (solarpos.go) -/

/-- One improvement step of `kepler2b`: the damped (Steele-limited)
fixed-point update for Kepler's equation. -/
noncomputable def keplerStep (e M E0 : ℝ) : ℝ :=
  let d0 := (M + e * Real.sin E0 - E0) / (1 - e * Real.cos E0)
  let d1 := if d0 > 0.5 then 0.5 else if d0 < -0.5 then -0.5 else d0
  E0 + d1

/-- `iterateDecimalPlaces` from solarpos.go.  The Bool is the error flag:
on exhausting `maxIterations` Go returns `(0, errors.New(...))`, modelled
here as `(0, true)`. -/
noncomputable def iterateDecimalPlaces (better : ℝ → ℝ) (d : ℝ) :
    ℕ → ℝ → ℝ × Bool
  | 0, _ => (0, true)
  | k + 1, start =>
    let n := better start
    if |n - start| < d then (n, false) else iterateDecimalPlaces better d k n

/-- `kepler2b` from solarpos.go: damped fixed-point iteration started at
`M`, tolerance `10^(-places)`, at most `places` iterations. -/
noncomputable def kepler2b (e M : ℝ) (places : ℕ) : ℝ × Bool :=
  iterateDecimalPlaces (keplerStep e M) ((10 : ℝ) ^ (-(places : ℤ))) places M

/-- The 53-step halving loop of `kepler3`, carrying the current estimate
`E0` and step `d`. -/
noncomputable def bisectLoop (e target : ℝ) : ℕ → ℝ → ℝ → ℝ
  | 0, E0, _ => E0
  | k + 1, E0, d =>
    let M1 := E0 - e * Real.sin E0
    if target - M1 < 0 then bisectLoop e target k (E0 - d) (d / 2)
    else bisectLoop e target k (E0 + d) (d / 2)

/-- `kepler3` from solarpos.go: bisection solution of Kepler's equation. -/
noncomputable def kepler3 (e M : ℝ) : ℝ :=
  let MR := PMod M (2 * Real.pi)
  if MR > Real.pi then -(bisectLoop e (2 * Real.pi - MR) 53 (Real.pi * 0.5) (Real.pi * 0.25))
  else bisectLoop e MR 53 (Real.pi * 0.5) (Real.pi * 0.25)

/-- `kepler` from solarpos.go, exactly as written there:

    if E, err := kepler2b(e, M, 15); err != nil { return E }
    return kepler3(e, M)

so the error branch returns the `E` of the failed call (which is 0) and
the success branch discards the converged `E` and calls `kepler3`. -/
noncomputable def kepler (e M : ℝ) : ℝ :=
  let p := kepler2b e M 15
  if p.2 = true then p.1 else kepler3 e M

/-- `trueAnomaly` from solarpos.go. -/
noncomputable def trueAnomaly (E e : ℝ) : ℝ :=
  2 * Real.arctan (Real.sqrt ((1 + e) / (1 - e)) * Real.tan (E * 0.5))

/-- `radius` from solarpos.go. -/
noncomputable def radius (E e a : ℝ) : ℝ := a * (1 - e * Real.cos E)

/-! ## Orbit model (solarpos.go) -/

/-- `Elements` from solarpos.go. -/
structure Elements where
  Axis : ℝ
  Ecc : ℝ
  Inc : ℝ
  ArgP : ℝ
  Node : ℝ
  TimeP : ℝ

/-- `Orbit` from solarpos.go. -/
structure Orbit where
  k : Elements
  n : ℝ
  _A : ℝ
  _B : ℝ
  _C : ℝ
  a : ℝ
  b : ℝ
  c : ℝ

/-- Model of Go `math.Atan2`. -/
noncomputable def atan2 (y x : ℝ) : ℝ :=
  if 0 < x then Real.arctan (y / x)
  else if x < 0 then
    (if 0 ≤ y then Real.arctan (y / x) + Real.pi else Real.arctan (y / x) - Real.pi)
  else if 0 < y then Real.pi / 2
  else if y < 0 then -(Real.pi / 2)
  else 0

/-- Model of Go `math.Hypot`. -/
noncomputable def hypot (x y : ℝ) : ℝ := Real.sqrt (x * x + y * y)

/-- `NewOrbit` from solarpos.go. -/
noncomputable def NewOrbit (k : Elements) : Orbit :=
  let n := K / k.Axis / Real.sqrt k.Axis
  let sΩ := Real.sin k.Node
  let cΩ := Real.cos k.Node
  let si := Real.sin k.Inc
  let ci := Real.cos k.Inc
  let F := cΩ
  let G := sΩ * COblJ2000
  let H := sΩ * SOblJ2000
  let P := -sΩ * ci
  let Q := cΩ * ci * COblJ2000 - si * SOblJ2000
  let R := cΩ * ci * SOblJ2000 + si * COblJ2000
  { k := k
    n := n
    _A := atan2 F P
    _B := atan2 G Q
    _C := atan2 H R
    a := hypot F P
    b := hypot G Q
    c := hypot H R }

/-! ## Series data loader (the VSOP87 file parser)

The Go loop `func (c *coeff) parse(...)` walks a slice of lines.  Lines
are `List Char`; a term's three coefficients come from the abstract
float field reader `pf` (model of `strconv.ParseFloat`). -/

/-- A VSOP87 series term, the `abc` struct. -/
structure Term where
  a : ℝ
  b : ℝ
  c : ℝ

/-- The `coeff` type: a fixed array of 6 power slots, each a list of
terms. -/
def Coeff : Type := Fin 6 → List Term

/-- The empty coefficient table (a zero-value `coeff` in Go: six nil
slices). -/
def emptyCoeff : Coeff := fun _ => []

/-- `V87Planet` from the loader file. -/
structure V87Planet where
  l : Coeff
  b : Coeff
  r : Coeff

/-- The errors produced by `parse` and `LoadPlanetPath`, one constructor
per `fmt.Errorf`/`errors.New` site, carrying exactly the data the Go
format string interpolates. -/
inductive ParseError
  /-- `Line %d: expected version %c, found %c.` -/
  | versionMismatch (line : ℕ) (expected found : Char)
  /-- `Line %d: expected body %s, found %s.` -/
  | bodyMismatch (line : ℕ) (expected found : String)
  /-- `Line %d: %v.` wrapping a `strconv.Atoi` failure on the term-count
  field. -/
  | badTermCount (line : ℕ) (cause : String)
  /-- `Unexpected end of file.` — built with `errors.New`, carrying no
  line number. -/
  | unexpectedEOF
  /-- `Line %d: %v.` wrapping a `strconv.ParseFloat` failure on a term
  data field. -/
  | badTermField (line : ℕ) (cause : String)

/-- The 1-based line number carried by a parse error, if any. -/
def ParseError.lineNum : ParseError → Option ℕ
  | .versionMismatch l _ _ => some l
  | .bodyMismatch l _ _ => some l
  | .badTermCount l _ => some l
  | .unexpectedEOF => none
  | .badTermField l _ => some l

/-- Result of the `parse` loop: normal return `(n, coeff)`, a returned
error, a Go runtime panic, or out of fuel (the Go loop not yet
terminated). -/
inductive ParseResult
  | ok (n : ℕ) (c : Coeff)
  | error (e : ParseError)
  | panic
  | diverge

/-- `lines[i:j]` of Go, on the already bounds-checked list. -/
def seg (l : List Char) (i j : ℕ) : List Char := (l.drop i).take (j - i)

/-- Model of `strings.TrimSpace` (ASCII whitespace). -/
def trimSpace (s : List Char) : List Char :=
  ((s.dropWhile Char.isWhitespace).reverse.dropWhile Char.isWhitespace).reverse

/-- Decimal digit run to a natural number; errors on empty or non-digit
input (the `strconv.Atoi` syntax error). -/
def digitsToNat : List Char → Except String ℕ
  | [] => .error "invalid syntax"
  | l => go l 0
where
  go : List Char → ℕ → Except String ℕ
    | [], acc => .ok acc
    | c :: rest, acc =>
      if c.isDigit then go rest (acc * 10 + (c.toNat - '0'.toNat))
      else .error "invalid syntax"

/-- Model of `strconv.Atoi` on the trimmed term-count field. -/
def goAtoi (s : List Char) : Except String ℤ :=
  match s with
  | '+' :: rest => (digitsToNat rest).map Int.ofNat
  | '-' :: rest => (digitsToNat rest).map (fun n => -(n : ℤ))
  | l => (digitsToNat l).map Int.ofNat

/-- Go byte subtraction `line[59] - '0'` (unsigned 8-bit wraparound). -/
def byteSub (a b : Char) : ℕ := (a.toNat % 256 + 256 - b.toNat % 256) % 256

/-- The supported VSOP87 file version character, `fileVersion`. -/
def fileVersion : Char := '2'

/-- Planet names as found in VSOP87B files, the `b7` array. -/
def b7 (i : Fin 8) : String :=
  ["MERCURY", "VENUS  ", "EARTH  ", "MARS   ", "JUPITER", "SATURN ",
    "URANUS ", "NEPTUNE"].getD i.val ""

/-- VSOP87B file extensions, the `ext` array. -/
def ext (i : Fin 8) : String :=
  ["mer", "ven", "ear", "mar", "jup", "sat", "ura", "nep"].getD i.val ""

/-- Result of reading one term data line. -/
inductive TermLineResult
  | ok (t : Term)
  | error (cause : String)
  | panic

/-- The body of the inner data-line loop of `parse`: three float fields
from fixed column ranges (`a` and `c` trimmed, `b` not).  Go slices
`line[i:j]` panic when `j > len(line)`; data lines are not
length-checked by `parse`, so the panics are reachable. -/
def parseTermLine (pf : String → Except String ℝ) (line : List Char) :
    TermLineResult :=
  if line.length < 97 then .panic
  else
    match pf (String.mk (trimSpace (seg line 79 97))) with
    | .error cause => .error cause
    | .ok av =>
      if line.length < 111 then .panic
      else
        match pf (String.mk (seg line 98 111)) with
        | .error cause => .error cause
        | .ok bv =>
          if line.length < 131 then .panic
          else
            match pf (String.mk (trimSpace (seg line 111 131))) with
            | .error cause => .error cause
            | .ok cv => .ok ⟨av, bv, cv⟩

/-- Result of the inner data-line loop over a term block. -/
inductive TermsResult
  | ok (terms : List Term)
  | error (e : ParseError)
  | panic

/-- The inner loop of `parse` over the `in` data lines of a block.
`base` is the 0-based index of the first data line, `cx` the count of
lines fully parsed so far; on a field failure the error line is
`base + cx + 1` (1-based), matching `fmt.Errorf("Line %d: %v.", n+cx+1,
err)`.  Writing term `cx` into the fixed scratch array `cbuf [2047]abc`
panics when `cx ≥ 2047`. -/
def parseTerms (pf : String → Except String ℝ) (base : ℕ) :
    List (List Char) → ℕ → List Term → TermsResult
  | [], _, acc => .ok acc.reverse
  | line :: rest, cx, acc =>
    if 2047 ≤ cx then .panic
    else
      match parseTermLine pf line with
      | .panic => .panic
      | .error cause => .error (.badTermField (base + cx + 1) cause)
      | .ok t => parseTerms pf base rest (cx + 1) (t :: acc)

/-- `func (c *coeff) parse(ic byte, ibody int, lines []string, n int,
au bool) (int, error)`, with an explicit fuel counter for the outer
`for n < len(lines)` loop.  The unused Go parameter `au` is kept.
Faithful points: a zero term count does `continue` without advancing
`n`; the premature-end check is `in > len(lines)-n` and returns the
plain `Unexpected end of file.` error; the slice `lines[n:n+in]` taken
after `n++` panics when `n+1+in > len(lines)` or `in < 0`; the store
`c[it]` panics when the power digit `it` is outside `0..5`. -/
def parse (pf : String → Except String ℝ) (ic : Char) (ibody : Fin 8)
    (au : Bool) (lines : List (List Char)) :
    ℕ → ℕ → Coeff → ParseResult
  | 0, _, _ => .diverge
  | fuel + 1, n, c =>
    if n < lines.length then
      let line := lines.getD n []
      if line.length < 132 then .ok n c
      else if line.getD 41 ' ' ≠ ic then .ok n c
      else if line.getD 17 ' ' ≠ fileVersion then
        .error (.versionMismatch (n + 1) fileVersion (line.getD 17 ' '))
      else if String.mk (seg line 22 29) ≠ b7 ibody then
        .error (.bodyMismatch (n + 1) (b7 ibody) (String.mk (seg line 22 29)))
      else
        let it := byteSub (line.getD 59 ' ') '0'
        match goAtoi (trimSpace (seg line 60 67)) with
        | .error cause => .error (.badTermCount (n + 1) cause)
        | .ok tc =>
          if tc = 0 then parse pf ic ibody au lines fuel n c
          else if (lines.length : ℤ) - (n : ℤ) < tc then .error .unexpectedEOF
          else if tc < 0 ∨ (lines.length : ℤ) < (n : ℤ) + 1 + tc then .panic
          else
            match parseTerms pf (n + 1) ((lines.drop (n + 1)).take tc.toNat) 0 [] with
            | .panic => .panic
            | .error e => .error e
            | .ok terms =>
              if hit : it < 6 then
                parse pf ic ibody au lines fuel (n + 1 + tc.toNat)
                  (Function.update c ⟨it, hit⟩ terms)
              else .panic
    else .ok n c

/-- Errors returned by `LoadPlanetPath`. -/
inductive LoadError
  /-- `Invalid planet.` -/
  | invalidPlanet
  /-- An error from `ioutil.ReadFile`. -/
  | ioError (cause : String)
  /-- A `parse` error. -/
  | formatError (e : ParseError)

/-- Result of `LoadPlanetPath`. -/
inductive LoadResult
  | ok (v : V87Planet)
  | error (e : LoadError)
  | panic
  | diverge

/-- Model of `strings.Split(s, "\n")`. -/
def splitLines : List Char → List (List Char)
  | [] => [[]]
  | ch :: rest =>
    if ch = '\n' then [] :: splitLines rest
    else
      match splitLines rest with
      | l :: ls => (ch :: l) :: ls
      | [] => [[ch]]

/-- `LoadPlanetPath` from the loader file.  `readFile` is the model of
`ioutil.ReadFile`; the bounds check on `ibody` precedes any use of it. -/
def LoadPlanetPath (pf : String → Except String ℝ)
    (readFile : String → Except String (List Char)) (fuel : ℕ)
    (ibody : ℤ) (path : String) : LoadResult :=
  if hb : ibody < 0 ∨ 8 ≤ ibody then .error .invalidPlanet
  else
    have h8 : ibody.toNat < 8 := by omega
    match readFile (path ++ "/VSOP87B." ++ ext ⟨ibody.toNat, h8⟩) with
    | .error cause => .error (.ioError cause)
    | .ok data =>
      let lines := splitLines data
      match parse pf '1' ⟨ibody.toNat, h8⟩ false lines fuel 0 emptyCoeff with
      | .diverge => .diverge
      | .panic => .panic
      | .error e => .error (.formatError e)
      | .ok n1 lc =>
        match parse pf '2' ⟨ibody.toNat, h8⟩ false lines fuel n1 emptyCoeff with
        | .diverge => .diverge
        | .panic => .panic
        | .error e => .error (.formatError e)
        | .ok n2 bc =>
          match parse pf '3' ⟨ibody.toNat, h8⟩ true lines fuel n2 emptyCoeff with
          | .diverge => .diverge
          | .panic => .panic
          | .error e => .error (.formatError e)
          | .ok _ rc => .ok ⟨lc, bc, rc⟩

/-! ## Series evaluator (`Position2000`) -/

/-- The inner term summation of `Position2000`: terms are added in
reverse insertion order (`for y := len(terms) - 1; y >= 0; y--`),
accumulating `cf[x] += term.a * math.Cos(term.b + term.c*τ)` from
zero. -/
noncomputable def termSum (τ : ℝ) (terms : List Term) : ℝ :=
  terms.reverse.foldl (fun cf t => cf + t.a * Real.cos (t.b + t.c * τ)) 0

/-- The coefficient list handed to `Horner` by `sum`: `cf[:len(series)]`
where `series` has type `coeff = [6][]abc`, so the length is the fixed
array length 6. -/
noncomputable def coefList (τ : ℝ) (series : Coeff) : List ℝ :=
  (List.finRange 6).map fun x => termSum τ (series x)

/-- The `sum` closure of `Position2000`: Horner combination of the six
per-power sums (the Horner call never sees an empty list, so the value
is the nonempty-case loop). -/
noncomputable def sumSeries (τ : ℝ) (series : Coeff) : ℝ :=
  hornerFrom τ (coefList τ series)

/-- Number of power slots of a table holding at least one term. -/
def populatedCount (series : Coeff) : ℕ :=
  ((List.finRange 6).filter fun x => !(series x).isEmpty).length

/-- `Position2000` from the loader file: τ = centuries/10, the three
series sums; longitude is wrapped by `unit.Angle.Mod1`, modelled per the
spec and the unit library as `PMod (· ) (2π)`; latitude and radius are
returned as-is. -/
noncomputable def Position2000 (v : V87Planet) (jde : ℝ) : ℝ × ℝ × ℝ :=
  let τ := J2000Century jde * 0.1
  (PMod (sumSeries τ v.l) (2 * Real.pi), sumSeries τ v.b, sumSeries τ v.r)

/-- `Orbit.Position` from solarpos.go. -/
noncomputable def Orbit.Position (o : Orbit) (jde : ℝ) : ℝ × ℝ × ℝ × ℝ :=
  let M := o.n * (jde - o.k.TimeP)
  let E := kepler o.k.Ecc M
  let r := radius E o.k.Ecc o.k.Axis
  let ν := trueAnomaly E o.k.Ecc
  (r * o.a * Real.sin (o._A + o.k.ArgP + ν),
   r * o.b * Real.sin (o._B + o.k.ArgP + ν),
   r * o.c * Real.sin (o._C + o.k.ArgP + ν),
   r)

/-! ## Spec-side decomposition of kepler3 (for the structural claim)

`reducedM` and `signFlip` name the spec's "reduce M into [0, π] and
record the sign flip"; the structural theorem relates `kepler3` to
them. -/

/-- The reduced mean anomaly the bisection loop actually targets. -/
noncomputable def reducedM (M : ℝ) : ℝ :=
  let MR := PMod M (2 * Real.pi)
  if MR > Real.pi then 2 * Real.pi - MR else MR

/-- The sign the symmetry `E(2π−M) = −E(M)` re-applies at the end. -/
noncomputable def signFlip (M : ℝ) : ℝ :=
  if PMod M (2 * Real.pi) > Real.pi then -1 else 1

/-! ## Concrete inputs used by witnesses and counterexamples -/

/-- The `Mercury` planet constant (iota value 0). -/
def mercuryId : Fin 8 := ⟨0, by omega⟩

/-- A model of `strconv.ParseFloat` that accepts everything; the inputs
below never reach a float field, so any model does. -/
noncomputable def pfZero : String → Except String ℝ := fun _ => .ok 0

/-- A file system with no readable files. -/
def rfEmpty : String → Except String (List Char) := fun _ => .error "open: no such file"

/-- A well-formed 132-column VSOP87B header line for Mercury: version
'2' at column 17, body `MERCURY` at columns 22–28, series index '1' at
column 41, power digit '0' at column 59, term count field `      0`
(zero) at columns 60–66. -/
def hdrZeroCount : List Char :=
  List.replicate 17 ' ' ++ ['2'] ++ List.replicate 4 ' ' ++
    ['M', 'E', 'R', 'C', 'U', 'R', 'Y'] ++ List.replicate 12 ' ' ++ ['1'] ++
    List.replicate 17 ' ' ++ ['0'] ++ List.replicate 6 ' ' ++ ['0'] ++
    List.replicate 65 ' '

/-- The same header but declaring a term count of 5, with no following
lines: the declared count exceeds the remaining input. -/
def hdrCountFive : List Char :=
  List.replicate 17 ' ' ++ ['2'] ++ List.replicate 4 ' ' ++
    ['M', 'E', 'R', 'C', 'U', 'R', 'Y'] ++ List.replicate 12 ' ' ++ ['1'] ++
    List.replicate 17 ' ' ++ ['0'] ++ List.replicate 6 ' ' ++ ['5'] ++
    List.replicate 65 ' '

/-- A radius-like coefficient table with exactly three populated power
slots (powers 0, 1, 2) and three empty ones. -/
noncomputable def radiusLike : Coeff := fun x =>
  if x.val < 3 then [⟨1, 0, 0⟩] else []

/-! ## Helper lemmas -/

/-- For positive modulus, `PMod` lands in `[0, y)`. -/
theorem PMod_mem (x y : ℝ) (hy : 0 < y) : 0 ≤ PMod x y ∧ PMod x y < y := by
  have hy0 : y ≠ 0 := ne_of_gt hy
  have hxz : y * (x / y) = x := by field_simp
  unfold PMod goMod realTrunc
  by_cases h0 : 0 ≤ x / y
  · rw [if_pos h0]
    have hfr : x - y * (⌊x / y⌋ : ℝ) = y * Int.fract (x / y) := by
      rw [Int.fract, mul_sub, hxz]
    have h1 : 0 ≤ y * Int.fract (x / y) :=
      mul_nonneg (le_of_lt hy) (Int.fract_nonneg _)
    have h2 : y * Int.fract (x / y) < y := by
      have := (mul_lt_mul_left hy).mpr (Int.fract_lt_one (x / y))
      simpa using this
    rw [hfr, if_neg (not_lt.mpr h1)]
    exact ⟨h1, h2⟩
  · rw [if_neg h0]
    have hcl : x / y ≤ (⌈x / y⌉ : ℝ) := Int.le_ceil _
    have hcu : (⌈x / y⌉ : ℝ) < x / y + 1 := Int.ceil_lt_add_one _
    have hr1 : x - y * (⌈x / y⌉ : ℝ) ≤ 0 := by nlinarith [hxz]
    have hr2 : -y < x - y * (⌈x / y⌉ : ℝ) := by nlinarith [hxz]
    by_cases hneg : x - y * (⌈x / y⌉ : ℝ) < 0
    · rw [if_pos hneg]
      constructor <;> linarith
    · rw [if_neg hneg]
      constructor <;> linarith

/-- For `0 ≤ x < y`, `PMod x y = x`. -/
theorem PMod_of_lt (x y : ℝ) (h0 : 0 ≤ x) (hxy : x < y) : PMod x y = x := by
  have hy : 0 < y := lt_of_le_of_lt h0 hxy
  have hz0 : 0 ≤ x / y := div_nonneg h0 (le_of_lt hy)
  have hz1 : x / y < 1 := (div_lt_one hy).mpr hxy
  have hfl : ⌊x / y⌋ = 0 := Int.floor_eq_zero_iff.mpr ⟨hz0, hz1⟩
  unfold PMod goMod realTrunc
  rw [if_pos hz0, hfl]
  norm_num
  intro h
  linarith

/-- When `iterateDecimalPlaces` reports the error, the value it returns
is 0. -/
theorem iterate_err_val (better : ℝ → ℝ) (d : ℝ) :
    ∀ (k : ℕ) (start : ℝ), (iterateDecimalPlaces better d k start).2 = true →
      (iterateDecimalPlaces better d k start).1 = 0 := by
  intro k
  induction k with
  | zero => intro s _; rfl
  | succ k ih =>
    intro s h
    by_cases hc : |better s - s| < d
    · simp [iterateDecimalPlaces, hc] at h
    · simp only [iterateDecimalPlaces, if_neg hc] at h ⊢
      exact ih _ h

/-- With `e = 0` the damped update leaves `E0 = M` fixed. -/
theorem keplerStep_e0_fix (M : ℝ) : keplerStep 0 M M = M := by
  unfold keplerStep
  norm_num

/-- With `e = 0` the primary iteration converges on its first step, to
exactly `M`, with no error. -/
theorem kepler2b_e0 (M : ℝ) : kepler2b 0 M 15 = (M, false) := by
  have h : (0 : ℝ) < (10 : ℝ) ^ (-((15 : ℕ) : ℤ)) := by positivity
  show iterateDecimalPlaces (keplerStep 0 M) ((10 : ℝ) ^ (-((15 : ℕ) : ℤ))) (14 + 1) M = (M, false)
  rw [iterateDecimalPlaces]
  simp only [keplerStep_e0_fix, sub_self, abs_zero]
  rw [if_pos h]

/-- With `e = 0`, `kepler` takes the converged branch, which (as the
code is written) discards the converged value and returns `kepler3`. -/
theorem kepler_e0 (M : ℝ) : kepler 0 M = kepler3 0 M := by
  unfold kepler
  rw [kepler2b_e0]
  simp

/-- With `e = 0`, every bisection result starting from rational
multiples of π is a rational multiple of π. -/
theorem bisectLoop_e0_dyadic (t : ℝ) :
    ∀ (k : ℕ) (q d : ℚ), ∃ q1 : ℚ,
      bisectLoop 0 t k ((q : ℝ) * Real.pi) ((d : ℝ) * Real.pi) = (q1 : ℝ) * Real.pi := by
  intro k
  induction k with
  | zero => intro q d; exact ⟨q, rfl⟩
  | succ k ih =>
    intro q d
    have e1 : (q : ℝ) * Real.pi - (d : ℝ) * Real.pi = (((q - d : ℚ)) : ℝ) * Real.pi := by
      push_cast; ring
    have e2 : (q : ℝ) * Real.pi + (d : ℝ) * Real.pi = (((q + d : ℚ)) : ℝ) * Real.pi := by
      push_cast; ring
    have e3 : (d : ℝ) * Real.pi / 2 = (((d / 2 : ℚ)) : ℝ) * Real.pi := by
      push_cast; ring
    simp only [bisectLoop]
    split
    · rw [e1, e3]; exact ih _ _
    · rw [e2, e3]; exact ih _ _

/-- The bisection iterate never strays more than the geometric sum of
the remaining steps, in particular at most `2d`, from its start. -/
theorem bisectLoop_range (e t : ℝ) :
    ∀ (k : ℕ) (E0 d : ℝ), 0 ≤ d →
      E0 - 2 * d ≤ bisectLoop e t k E0 d ∧ bisectLoop e t k E0 d ≤ E0 + 2 * d := by
  intro k
  induction k with
  | zero =>
    intro E0 d hd
    simp only [bisectLoop]
    constructor <;> linarith
  | succ k ih =>
    intro E0 d hd
    have hd2 : 0 ≤ d / 2 := by linarith
    simp only [bisectLoop]
    split
    · obtain ⟨h1, h2⟩ := ih (E0 - d) (d / 2) hd2
      constructor <;> linarith
    · obtain ⟨h1, h2⟩ := ih (E0 + d) (d / 2) hd2
      constructor <;> linarith

/-- The descending Horner loop evaluates the polynomial with `c[0]` as
constant term. -/
theorem hornerFrom_eq_sum (x : ℝ) :
    ∀ (rest : List ℝ) (a : ℝ),
      hornerFrom x (a :: rest) =
        ∑ i ∈ Finset.range (rest.length + 1), (a :: rest).getD i 0 * x ^ i := by
  intro rest
  induction rest with
  | nil => intro a; simp [hornerFrom]
  | cons b t ih =>
    intro a
    have step : hornerFrom x (a :: b :: t) = hornerFrom x (b :: t) * x + a := by
      rw [hornerFrom]
    rw [step, ih b,
      Finset.sum_range_succ' (fun i => (a :: b :: t).getD i 0 * x ^ i) (b :: t).length,
      Finset.sum_mul]
    simp only [List.getD_cons_succ, List.getD_cons_zero, List.length_cons, pow_zero, pow_succ]
    congr 1
    · exact Finset.sum_congr rfl fun i _ => by ring
    · ring

/-- A nonempty coefficient list takes the `some` branch of `Horner`. -/
theorem Horner_cons (x a : ℝ) (rest : List ℝ) :
    Horner x (a :: rest) = some (hornerFrom x (a :: rest)) := rfl

/-! ## Claim theorems -/

/-- **C6.** For every planetary model and every time value,
`Position2000` returns the longitude reduced with `PMod` to the
canonical range `[0, 2π)`, while the latitude and radius components are
exactly the raw series sums, unreduced. -/
theorem longitude_reduced_lat_radius_raw (v : V87Planet) (jde : ℝ) :
    (Position2000 v jde).1 =
        PMod (sumSeries (J2000Century jde * 0.1) v.l) (2 * Real.pi) ∧
      0 ≤ (Position2000 v jde).1 ∧ (Position2000 v jde).1 < 2 * Real.pi ∧
      (Position2000 v jde).2.1 = sumSeries (J2000Century jde * 0.1) v.b ∧
      (Position2000 v jde).2.2 = sumSeries (J2000Century jde * 0.1) v.r := by
  have h2π : (0 : ℝ) < 2 * Real.pi := by positivity
  obtain ⟨hlo, hhi⟩ := PMod_mem (sumSeries (J2000Century jde * 0.1) v.l) (2 * Real.pi) h2π
  exact ⟨rfl, hlo, hhi, rfl, rfl⟩

/-- **C7.** `kepler3` first reduces `M` to `reducedM M ∈ [0, π]`
(recording the sign flip of the symmetry `E(2π−M) = −E(M)`), then runs
exactly 53 halving steps from `E₀ = π/2` with initial step `π/4` —
each step moving by the current step according to the sign of
`target − (E − e sin E)` and halving the step — and finally re-applies
the sign; being a total function of `(e, M)` it terminates on every
input. -/
theorem kepler3_structure (e M : ℝ) :
    (0 ≤ reducedM M ∧ reducedM M ≤ Real.pi) ∧
      kepler3 e M =
        signFlip M * bisectLoop e (reducedM M) 53 (Real.pi * 0.5) (Real.pi * 0.25) ∧
      (∀ (t : ℝ) (k : ℕ) (E0 d : ℝ),
        bisectLoop e t (k + 1) E0 d =
          if t - (E0 - e * Real.sin E0) < 0 then bisectLoop e t k (E0 - d) (d / 2)
          else bisectLoop e t k (E0 + d) (d / 2)) := by
  have hπ : (0 : ℝ) < Real.pi := Real.pi_pos
  obtain ⟨hm0, hm1⟩ := PMod_mem M (2 * Real.pi) (by positivity)
  refine ⟨?_, ?_, ?_⟩
  · unfold reducedM
    by_cases h : PMod M (2 * Real.pi) > Real.pi
    · rw [if_pos h]
      constructor <;> linarith
    · rw [if_neg h]
      push_neg at h
      exact ⟨hm0, h⟩
  · unfold kepler3 reducedM signFlip
    by_cases h : PMod M (2 * Real.pi) > Real.pi
    · rw [if_pos h, if_pos h, if_pos h]
      ring
    · rw [if_neg h, if_neg h, if_neg h]
      ring
  · intro t k E0 d
    rfl

/-- **C8.** `Horner` called with an empty coefficient list fails (the
Go access `c[len(c)-1]` panics, modelled as `none`) rather than
returning zero; on every nonempty list it returns the value of the
polynomial whose constant term is `c[0]`. -/
theorem horner_empty_panics_nonempty_evals (x : ℝ) :
    Horner x [] = none ∧
      ∀ (a : ℝ) (rest : List ℝ),
        Horner x (a :: rest) =
          some (∑ i ∈ Finset.range (rest.length + 1), (a :: rest).getD i 0 * x ^ i) := by
  refine ⟨rfl, ?_⟩
  intro a rest
  rw [Horner_cons, hornerFrom_eq_sum]

/-- **C9.** Orbit construction is a pure function of the elements:
orbits constructed from equal `Elements` have identical derived mean
motion `n`, orientation angles `A`, `B`, `C`, and magnitudes `a`, `b`,
`c`. -/
theorem orbit_construction_deterministic (k1 k2 : Elements) (h : k1 = k2) :
    (NewOrbit k1).n = (NewOrbit k2).n ∧
      (NewOrbit k1)._A = (NewOrbit k2)._A ∧
      (NewOrbit k1)._B = (NewOrbit k2)._B ∧
      (NewOrbit k1)._C = (NewOrbit k2)._C ∧
      (NewOrbit k1).a = (NewOrbit k2).a ∧
      (NewOrbit k1).b = (NewOrbit k2).b ∧
      (NewOrbit k1).c = (NewOrbit k2).c := by
  subst h
  exact ⟨rfl, rfl, rfl, rfl, rfl, rfl, rfl⟩

/-- Witness for C9 at the unit circular orbit elements. -/
theorem orbit_construction_deterministic_witness :
    (NewOrbit ⟨1, 0, 0, 0, 0, 0⟩).n = (NewOrbit ⟨1, 0, 0, 0, 0, 0⟩).n ∧
      (NewOrbit ⟨1, 0, 0, 0, 0, 0⟩)._A = (NewOrbit ⟨1, 0, 0, 0, 0, 0⟩)._A ∧
      (NewOrbit ⟨1, 0, 0, 0, 0, 0⟩)._B = (NewOrbit ⟨1, 0, 0, 0, 0, 0⟩)._B ∧
      (NewOrbit ⟨1, 0, 0, 0, 0, 0⟩)._C = (NewOrbit ⟨1, 0, 0, 0, 0, 0⟩)._C ∧
      (NewOrbit ⟨1, 0, 0, 0, 0, 0⟩).a = (NewOrbit ⟨1, 0, 0, 0, 0, 0⟩).a ∧
      (NewOrbit ⟨1, 0, 0, 0, 0, 0⟩).b = (NewOrbit ⟨1, 0, 0, 0, 0, 0⟩).b ∧
      (NewOrbit ⟨1, 0, 0, 0, 0, 0⟩).c = (NewOrbit ⟨1, 0, 0, 0, 0, 0⟩).c :=
  orbit_construction_deterministic ⟨1, 0, 0, 0, 0, 0⟩ ⟨1, 0, 0, 0, 0, 0⟩ rfl

/-- **C10.** `LoadPlanetPath` with a body index outside `0..7` returns
the `Invalid planet.` error and no model, for every file system — the
result does not depend on `readFile`, so the data source is never
read. -/
theorem load_invalid_planet (pf : String → Except String ℝ)
    (readFile : String → Except String (List Char)) (fuel : ℕ)
    (ibody : ℤ) (path : String) (h : ibody < 0 ∨ 8 ≤ ibody) :
    LoadPlanetPath pf readFile fuel ibody path = .error .invalidPlanet := by
  unfold LoadPlanetPath
  rw [dif_pos h]

/-- Witness for C10 at `ibody = 8` with an empty file system. -/
theorem load_invalid_planet_witness :
    LoadPlanetPath pfZero rfEmpty 0 8 "" = .error .invalidPlanet :=
  load_invalid_planet pfZero rfEmpty 0 8 "" (Or.inr (by norm_num))

/-- `kepler3` on the flipped branch. -/
theorem kepler3_eval_gt (e M : ℝ) (h : PMod M (2 * Real.pi) > Real.pi) :
    kepler3 e M =
      -(bisectLoop e (2 * Real.pi - PMod M (2 * Real.pi)) 53 (Real.pi * 0.5) (Real.pi * 0.25)) := by
  simp only [kepler3]
  rw [if_pos h]

/-- `kepler3` on the unflipped branch. -/
theorem kepler3_eval_le (e M : ℝ) (h : ¬PMod M (2 * Real.pi) > Real.pi) :
    kepler3 e M = bisectLoop e (PMod M (2 * Real.pi)) 53 (Real.pi * 0.5) (Real.pi * 0.25) := by
  simp only [kepler3]
  rw [if_neg h]

/-- The bisection result at `e = 0`, `M = 1` is a rational multiple of
π, hence (π being irrational) never exactly 1. -/
theorem kepler3_e0_one_ne_one : kepler3 0 1 ≠ 1 := by
  have hπ3 : (3 : ℝ) < Real.pi := Real.pi_gt_three
  have hp : PMod 1 (2 * Real.pi) = 1 := PMod_of_lt 1 (2 * Real.pi) (by norm_num) (by linarith)
  have hno : ¬PMod 1 (2 * Real.pi) > Real.pi := by
    rw [hp]; exact not_lt.mpr (by linarith)
  rw [kepler3_eval_le 0 1 hno, hp]
  have ha : Real.pi * 0.5 = ((1 / 2 : ℚ) : ℝ) * Real.pi := by push_cast; ring
  have hb : Real.pi * 0.25 = ((1 / 4 : ℚ) : ℝ) * Real.pi := by push_cast; ring
  rw [ha, hb]
  obtain ⟨q, hq⟩ := bisectLoop_e0_dyadic 1 53 (1 / 2) (1 / 4)
  rw [hq]
  intro hcon
  by_cases hq0 : q = 0
  · rw [hq0] at hcon; norm_num at hcon
  · have hπeq : Real.pi = ((q : ℝ))⁻¹ := eq_inv_of_mul_eq_one_right hcon
    rw [← Rat.cast_inv] at hπeq
    have : Irrational ((q⁻¹ : ℚ) : ℝ) := hπeq ▸ irrational_pi
    exact Rat.not_irrational _ this

/-- **C1.** The `kepler` dispatch is inverted with respect to the
claim: when the primary iteration reports non-convergence, `kepler`
returns the `E` of the failed call — which is 0 — instead of invoking
the bisection fallback; and when the primary converges, `kepler`
discards the converged value and returns the bisection result.  At
`e = 0`, `M = 1` the primary converges to exactly 1 on its first step
with no error, yet `kepler 0 1` is the bisection value, a rational
multiple of π, which is not 1. -/
theorem kepler_fallback_inverted :
    (∀ e M : ℝ, (kepler2b e M 15).2 = true → kepler e M = 0) ∧
      kepler2b 0 1 15 = (1, false) ∧
      kepler 0 1 = kepler3 0 1 ∧
      kepler 0 1 ≠ 1 := by
  refine ⟨?_, kepler2b_e0 1, kepler_e0 1, ?_⟩
  · intro e M h
    show (if (kepler2b e M 15).2 = true then (kepler2b e M 15).1 else kepler3 e M) = 0
    rw [if_pos h]
    exact iterate_err_val (keplerStep e M) _ 15 M h
  · rw [kepler_e0 1]
    exact kepler3_e0_one_ne_one

/-- **C4.** The claim `e = 0 ⇒ E = M (within 1e-12)` fails on the code:
at `e = 0`, `M = 3π/2` the primary converges to exactly `M`, but
`kepler` discards it and returns the bisection value, which lies in
`[-π, 0]` — more than 2π away from `M`. -/
theorem kepler_e0_not_M :
    kepler 0 (3 * Real.pi / 2) ≤ 0 ∧
      1 / 10 ^ 12 < |kepler 0 (3 * Real.pi / 2) - 3 * Real.pi / 2| := by
  have hπ3 : (3 : ℝ) < Real.pi := Real.pi_gt_three
  have hπ : (0 : ℝ) < Real.pi := Real.pi_pos
  have hp : PMod (3 * Real.pi / 2) (2 * Real.pi) = 3 * Real.pi / 2 :=
    PMod_of_lt _ _ (by positivity) (by linarith)
  have hgt : PMod (3 * Real.pi / 2) (2 * Real.pi) > Real.pi := by rw [hp]; linarith
  rw [kepler_e0, kepler3_eval_gt 0 _ hgt, hp]
  have harg : 2 * Real.pi - 3 * Real.pi / 2 = Real.pi / 2 := by ring
  rw [harg]
  obtain ⟨hlo, hhi⟩ :=
    bisectLoop_range 0 (Real.pi / 2) 53 (Real.pi * 0.5) (Real.pi * 0.25) (by positivity)
  have h0 : Real.pi * 0.5 - 2 * (Real.pi * 0.25) = 0 := by ring
  have hb0 : 0 ≤ bisectLoop 0 (Real.pi / 2) 53 (Real.pi * 0.5) (Real.pi * 0.25) := by linarith
  refine ⟨by linarith, ?_⟩
  have hneg :
      -bisectLoop 0 (Real.pi / 2) 53 (Real.pi * 0.5) (Real.pi * 0.25) - 3 * Real.pi / 2 < 0 := by
    linarith
  rw [abs_of_neg hneg]
  have hq : (1 : ℝ) / 10 ^ 12 < 9 / 2 := by norm_num
  linarith

set_option maxRecDepth 100000

/-- One pass of the parse loop over the zero-count header leaves the
state unchanged: the Go `continue` does not advance `n`. -/
theorem parse_zero_count_step (pf : String → Except String ℝ) (k : ℕ) :
    parse pf '1' mercuryId false [hdrZeroCount] (k + 1) 0 emptyCoeff =
      parse pf '1' mercuryId false [hdrZeroCount] k 0 emptyCoeff := rfl

/-- **C2.** A block whose header declares a term count of zero makes
the parse loop `continue` without advancing `n`: the same header is
re-examined forever and the loader never terminates on this
well-formed input (for every fuel bound, the loop is still running). -/
theorem parse_zero_count_diverges (pf : String → Except String ℝ) (fuel : ℕ) :
    parse pf '1' mercuryId false [hdrZeroCount] fuel 0 emptyCoeff = .diverge := by
  induction fuel with
  | zero => rfl
  | succ k ih => rw [parse_zero_count_step]; exact ih

/-- **C3 (amended).** When a well-formed block header at (0-based)
index `n` declares a term count `tc` that exceeds `len(lines) − n`,
`parse` returns the premature-end-of-input error
`Unexpected end of file.` — a plain error that carries no line
number. -/
theorem parse_eof_error (pf : String → Except String ℝ) (ic : Char)
    (ibody : Fin 8) (au : Bool) (lines : List (List Char)) (fuel n : ℕ)
    (c : Coeff) (tc : ℤ)
    (hn : n < lines.length)
    (hlen : ¬(lines.getD n []).length < 132)
    (hic : (lines.getD n []).getD 41 ' ' = ic)
    (hv : (lines.getD n []).getD 17 ' ' = fileVersion)
    (hb : String.mk (seg (lines.getD n []) 22 29) = b7 ibody)
    (hcount : goAtoi (trimSpace (seg (lines.getD n []) 60 67)) = .ok tc)
    (h0 : tc ≠ 0)
    (hex : (lines.length : ℤ) - (n : ℤ) < tc) :
    parse pf ic ibody au lines (fuel + 1) n c = .error .unexpectedEOF := by
  simp only [parse]
  rw [if_pos hn, if_neg hlen, if_neg (not_not_intro hic), if_neg (not_not_intro hv),
    if_neg (not_not_intro hb)]
  simp only [hcount]
  rw [if_neg h0, if_pos hex]

/-- Witness for the amended C3: a single Mercury header declaring five
terms with no following lines. -/
theorem parse_eof_error_witness :
    parse pfZero '1' mercuryId false [hdrCountFive] 1 0 emptyCoeff = .error .unexpectedEOF :=
  parse_eof_error pfZero '1' mercuryId false [hdrCountFive] 0 0 emptyCoeff 5
    (by norm_num) (by decide) (by decide) (by decide) (by rfl) (by rfl)
    (by decide) (by decide)

/-- **C3 counterexample.** At that input the error actually returned is
`Unexpected end of file.`, whose line-number payload is `none` — the
claimed 1-based offending line number is not carried. -/
theorem parse_eof_no_line_number :
    parse pfZero '1' mercuryId false [hdrCountFive] 1 0 emptyCoeff = .error .unexpectedEOF ∧
      ParseError.lineNum .unexpectedEOF = none :=
  ⟨rfl, rfl⟩

/-- **C5 counterexample.** For a radius-like table with exactly three
populated power slots, the coefficient list handed to Horner still has
the fixed length 6 (`len(series)` of the `[6][]abc` array), not 3. -/
theorem horner_count_fixed_counterexample :
    (coefList 0 radiusLike).length = 6 ∧ populatedCount radiusLike = 3 ∧
      (coefList 0 radiusLike).length ≠ populatedCount radiusLike := by
  have h1 : (coefList 0 radiusLike).length = 6 := by simp [coefList]
  have h2 : populatedCount radiusLike = 3 := rfl
  exact ⟨h1, h2, by rw [h1, h2]; norm_num⟩

/-- **C5 (amended).** The per-power sums are combined via Horner in τ
using the fixed coefficient count 6 — the length of the `[6][]abc`
power array — for every quantity, the six coefficients being the six
per-power term sums in power order (unpopulated slots contributing a
zero sum); the count is not the number of populated slots. -/
theorem horner_count_amended (τ : ℝ) (series : Coeff) :
    coefList τ series =
      [termSum τ (series 0), termSum τ (series 1), termSum τ (series 2),
        termSum τ (series 3), termSum τ (series 4), termSum τ (series 5)] ∧
      (coefList τ series).length = 6 ∧
      termSum τ [] = 0 ∧
      Horner τ (coefList τ series) = some (sumSeries τ series) := by
  have hl : coefList τ series =
      termSum τ (series 0) ::
        [termSum τ (series 1), termSum τ (series 2), termSum τ (series 3),
          termSum τ (series 4), termSum τ (series 5)] := rfl
  refine ⟨hl, by simp [coefList], rfl, ?_⟩
  conv_lhs => rw [hl]
  rw [Horner_cons, ← hl]
  rfl

end AstroSpec
